import Mathlib

set_option maxHeartbeats 1000000

/-!
Verification development for the orchestration/coordination engine of the
repository (src/game/DailyTasks.py): the team-rendezvous coordinator
(TeamTaskCoordinator), the per-client pipeline runner (WindowTaskExecutor),
the orchestrator (DailyTasks.start_task) and the bounded-concurrency
submission utility (GameAutomationManager).

Python dicts keyed by team-id strings are modelled as association lists with
first-match lookup; `del` is modelled as removing every binding of the key
(dicts have unique keys, so the two coincide on every state the program can
build).  Python exceptions (KeyError) are modelled with `Except`.  Wall-clock
time is threaded explicitly as an integer number of seconds (`int(time.time())`
in the source truncates to whole seconds).
-/

namespace Dhsy

/-- First-match lookup in an association list: `d[k]` / `d.get(k)`. -/
def dictGet {β : Type} (m : List (String × β)) (k : String) : Option β :=
  match m with
  | [] => none
  | (k1, v) :: rest => if k1 = k then some v else dictGet rest k

/-- `d[k] = v`: replace the binding if the key is present, append otherwise. -/
def dictInsert {β : Type} (m : List (String × β)) (k : String) (v : β) :
    List (String × β) :=
  match m with
  | [] => [(k, v)]
  | (k1, v1) :: rest =>
    if k1 = k then (k, v) :: rest else (k1, v1) :: dictInsert rest k v

/-- `del d[k]` (on dicts keys are unique; removing every binding coincides). -/
def dictErase {β : Type} (m : List (String × β)) (k : String) :
    List (String × β) :=
  m.filter (fun p => p.1 ≠ k)

/-- `k in d`. -/
def dictMem {β : Type} (m : List (String × β)) (k : String) : Bool :=
  (dictGet m k).isSome

/-- The key list of a dict (in insertion order, as Python dicts are ordered). -/
def dictKeys {β : Type} : List (String × β) → List String
  | [] => []
  | (k, _) :: rest => k :: dictKeys rest

/-- Python exceptions that the modelled code can raise. -/
inductive PyErr : Type
  | keyError (key : String)
  deriving Repr, DecidableEq

/-- TaskRole enum of DailyTasks.py (LEADER / MEMBER / SOLO). -/
inductive TaskRole : Type
  | LEADER
  | MEMBER
  | SOLO
  deriving Repr, DecidableEq

/-- The `.value` strings of the TaskRole enum members. -/
def TaskRole.value : TaskRole → String
  | .LEADER => "leader"
  | .MEMBER => "member"
  | .SOLO => "solo"

/-- One entry of TeamTaskCoordinator.team_tasks: the dict literal built by
create_team (task_name, leader, members, status, created_at). -/
structure TeamInfo : Type where
  task_name : String
  leader : Int
  members : List Int
  status : String
  created_at : Int
  deriving Repr, DecidableEq

/-- State of a TeamTaskCoordinator instance: the three registry dicts.
An asyncio.Event is modelled by its set-flag (Bool). -/
structure Coordinator : Type where
  team_tasks : List (String × TeamInfo)
  team_members : List (String × List Int)
  team_events : List (String × Bool)
  deriving Repr, DecidableEq

/-- A freshly constructed TeamTaskCoordinator: all three dicts empty. -/
def emptyCoordinator : Coordinator := ⟨[], [], []⟩

/-- The id string built by create_team:
f-string of task_name, leader_hwnd and int(time.time()) (whole seconds). -/
def make_team_id (task_name : String) (leader_hwnd : Int) (now : Int) : String :=
  task_name ++ "_" ++ toString leader_hwnd ++ "_" ++ toString now

/-- TeamTaskCoordinator.create_team: allocate the id, then (under the lock)
install the record, the member list ([leader] + members) and a fresh unset
event; return the id. `now` is int(time.time()) at the call. -/
def create_team (c : Coordinator) (task_name : String) (leader_hwnd : Int)
    (member_hwnds : List Int) (now : Int) : String × Coordinator :=
  let team_id := make_team_id task_name leader_hwnd now
  (team_id,
    { team_tasks := dictInsert c.team_tasks team_id
        ⟨task_name, leader_hwnd, member_hwnds, "forming", now⟩
      team_members := dictInsert c.team_members team_id
        (leader_hwnd :: member_hwnds)
      team_events := dictInsert c.team_events team_id false })

/-- TeamTaskCoordinator.wait_for_team_ready.  `self.team_events[team_id]`
raises KeyError when the id is unknown (only asyncio.TimeoutError is caught).
Otherwise the wait resolves true when the event is already set or is set
before the timeout elapses (`fired`), and the TimeoutError path returns
false.  The timing of the external set_team_ready call is abstracted into
the Boolean `fired`: whether the signal fires strictly before the timeout. -/
def wait_for_team_ready (c : Coordinator) (team_id : String) (fired : Bool) :
    Except PyErr Bool :=
  match dictGet c.team_events team_id with
  | none => .error (.keyError team_id)
  | some s => .ok (s || fired)

/-- TeamTaskCoordinator.set_team_ready: under the lock, if the id is in
team_tasks, set the record's status to 'ready' and set the event
(`self.team_events[team_id].set()` raises KeyError if the event dict lost
the key); otherwise do nothing. -/
def set_team_ready (c : Coordinator) (team_id : String) : Except PyErr Coordinator :=
  if dictMem c.team_tasks team_id then
    match dictGet c.team_tasks team_id, dictGet c.team_events team_id with
    | some info, some _ =>
      .ok { c with
              team_tasks := dictInsert c.team_tasks team_id
                { info with status := "ready" }
              team_events := dictInsert c.team_events team_id true }
    | _, _ => .error (.keyError team_id)
  else
    .ok c

/-- TeamTaskCoordinator.disband_team: under the lock, if the id is in
team_tasks, delete it from team_tasks and team_members (the latter `del`
raises KeyError if the key is absent there) and, when present, from
team_events; otherwise do nothing.  (On the KeyError path the source would
leave team_tasks already mutated before propagating; no theorem below
depends on the state carried by an error.) -/
def disband_team (c : Coordinator) (team_id : String) : Except PyErr Coordinator :=
  if dictMem c.team_tasks team_id then
    if dictMem c.team_members team_id then
      .ok { team_tasks := dictErase c.team_tasks team_id
            team_members := dictErase c.team_members team_id
            team_events := dictErase c.team_events team_id }
    else
      .error (.keyError team_id)
  else
    .ok c

/-- TeamTaskCoordinator.get_team_role: SOLO if the id is unknown, LEADER if
the handle equals the record's leader, MEMBER if it is in the record's
member list, SOLO otherwise. -/
def get_team_role (c : Coordinator) (team_id : String) (hwnd : Int) : TaskRole :=
  match dictGet c.team_tasks team_id with
  | none => .SOLO
  | some info =>
    if hwnd = info.leader then .LEADER
    else if hwnd ∈ info.members then .MEMBER
    else .SOLO

/-- TeamTaskCoordinator.get_team_members: `self.team_members.get(team_id, [])`. -/
def get_team_members (c : Coordinator) (team_id : String) : List Int :=
  (dictGet c.team_members team_id).getD []

/-- The status string recorded for a team id, if the id is registered. -/
def statusOf (c : Coordinator) (team_id : String) : Option String :=
  (dictGet c.team_tasks team_id).map (fun info => info.status)

/-- Whether the readiness event of a team id is set (false when unknown). -/
def eventSet (c : Coordinator) (team_id : String) : Bool :=
  (dictGet c.team_events team_id).getD false

/-- The three registry dicts always carry the same keys in the same order:
create_team inserts the id into all three together and disband_team removes
it from all three together.  Every state the program can reach satisfies
this. -/
def Aligned (c : Coordinator) : Prop :=
  dictKeys c.team_tasks = dictKeys c.team_members ∧
  dictKeys c.team_tasks = dictKeys c.team_events

instance (c : Coordinator) : Decidable (Aligned c) := by
  unfold Aligned; infer_instance

/-! ### WindowTaskExecutor

The executor runs one client's ordered task list.  A task's body
(`task_func`, external automation against the game client) is modelled by
the observable `TaskBehavior` data: it either returns a result payload or
raises an error with a message.  The cooperative stop flag is modelled as
never being set during the run (stop_tasks is not called), so the
`if not self.is_running: break` check never fires. -/

/-- What one invocation of a task_func does: return a payload or raise. -/
inductive TaskBehavior : Type
  | ok (data : String)
  | throws (err : String)
  deriving Repr, DecidableEq

/-- One element of _get_task_sequence(): (task_name, task_func, task_config).
`duration` is the wall-clock seconds the body consumes (end minus start). -/
structure TaskSpec : Type where
  name : String
  is_team_task : Bool
  team_size : Int
  behavior : TaskBehavior
  duration : Int
  deriving Repr, DecidableEq

/-- The window_info dict of one client: its handle, whether
connect_to_window_async succeeds (none) or raises (some message), and the
available_windows list installed by start_task. -/
structure WindowInfo : Type where
  hwnd : Int
  connect_error : Option String
  available_windows : List Int
  deriving Repr, DecidableEq

/-- The result dict returned by _execute_single_task after the executor has
written the 'role' and (for team tasks) 'team_id' keys into it. -/
structure TaskResultDict : Type where
  data : String
  role : String
  team_id : Option String
  deriving Repr, DecidableEq

/-- Mutable executor context threaded through a run: the shared coordinator,
the wall clock (whole seconds) and the executor's current_team_id field. -/
structure ExecSt : Type where
  co : Coordinator
  now : Int
  current_team_id : Option String
  deriving Repr, DecidableEq

/-- Python list slicing `xs[:j]` including the negative-index case. -/
def pySliceTo (xs : List Int) (j : Int) : List Int :=
  if j < 0 then xs.take (xs.length - j.natAbs) else xs.take j.toNat

/-- WindowTaskExecutor._get_teammates_for_task: every other available window,
truncated to team_size - 1 (the `if teammates else []` guard is the identity
on the empty list and is absorbed by the slice). -/
def get_teammates_for_task (hwnd : Int) (avail : List Int) (team_size : Int) :
    List Int :=
  pySliceTo (avail.filter (fun h => h ≠ hwnd)) (team_size - 1)

/-- WindowTaskExecutor._execute_solo_task: run the body and tag the result
dict with role 'solo'; an exception propagates. -/
def execute_solo_task (beh : TaskBehavior) : Except String TaskResultDict :=
  match beh with
  | .ok d => .ok ⟨d, "solo", none⟩
  | .throws e => .error e

/-- WindowTaskExecutor._execute_team_task: with no teammates fall back to
solo execution; otherwise create a team (setting current_team_id), look up
the own role, run the body, and write 'role' and 'team_id' into the result.
An exception from the body propagates after current_team_id was set. -/
def execute_team_task (st : ExecSt) (hwnd : Int) (avail : List Int)
    (spec : TaskSpec) : Except String TaskResultDict × ExecSt :=
  let teammate_hwnds := get_teammates_for_task hwnd avail spec.team_size
  if teammate_hwnds.isEmpty then
    (execute_solo_task spec.behavior, st)
  else
    let r := create_team st.co spec.name hwnd teammate_hwnds st.now
    let st2 : ExecSt := { st with co := r.2, current_team_id := some r.1 }
    let role := get_team_role r.2 r.1 hwnd
    match role with
    | .SOLO =>
      match execute_solo_task spec.behavior with
      | .ok res => (.ok { res with role := TaskRole.SOLO.value, team_id := some r.1 }, st2)
      | .error e => (.error e, st2)
    | rl =>
      match spec.behavior with
      | .ok d => (.ok ⟨d, rl.value, some r.1⟩, st2)
      | .throws e => (.error e, st2)

/-- WindowTaskExecutor._execute_single_task: dispatch on is_team_task. -/
def execute_single_task (st : ExecSt) (hwnd : Int) (avail : List Int)
    (spec : TaskSpec) : Except String TaskResultDict × ExecSt :=
  if spec.is_team_task then execute_team_task st hwnd avail spec
  else (execute_solo_task spec.behavior, st)

/-- One entry of the per-window results dict built by execute_all_tasks.
Success entries carry role/team_id; failed entries carry the error string;
absent dict keys are `none`. -/
structure TaskEntry : Type where
  status : String
  error : Option String
  duration : Int
  role : Option String
  team_id : Option String
  start_time : Int
  end_time : Int
  deriving Repr, DecidableEq

/-- The per-task loop of execute_all_tasks: try the task, record a success
entry, or catch the exception and record a failed entry with the message and
elapsed duration, then continue with the next task. -/
def runLoop (hwnd : Int) (avail : List Int) :
    List TaskSpec → ExecSt → List (String × TaskEntry) →
      List (String × TaskEntry) × ExecSt
  | [], st, results => (results, st)
  | spec :: rest, st, results =>
    let start_time := st.now
    let r := execute_single_task st hwnd avail spec
    let end_time := start_time + spec.duration
    let st2 : ExecSt := { r.2 with now := end_time }
    let entry : TaskEntry :=
      match r.1 with
      | .ok res =>
        ⟨"success", none, spec.duration, some res.role, res.team_id,
          start_time, end_time⟩
      | .error e =>
        ⟨"failed", some e, spec.duration, none, none, start_time, end_time⟩
    runLoop hwnd avail rest st2 (dictInsert results spec.name entry)

/-- The dict returned by WindowTaskExecutor.execute_all_tasks: the early
'running' return, the 'success' dict with per-task results, or the 'failed'
dict when connect raised. -/
structure RunOutcome : Type where
  status : String
  hwnd : Int
  task_results : Option (List (String × TaskEntry))
  error : Option String
  completed_at : Option Int
  deriving Repr, DecidableEq

/-- The try/except part of execute_all_tasks: connect (a raise is caught by
the outer `except Exception` and turned into the 'failed' dict for this
window only), then run the per-task loop and build the 'success' dict. -/
def exec_body (w : WindowInfo) (seq : List TaskSpec) (st : ExecSt) :
    RunOutcome × ExecSt :=
  match w.connect_error with
  | none =>
    let r := runLoop w.hwnd w.available_windows seq st []
    (⟨"success", w.hwnd, some r.1, none, some r.2.now⟩, r.2)
  | some e =>
    (⟨"failed", w.hwnd, none, some e, some st.now⟩, st)

/-- The finally clause of execute_all_tasks: when current_team_id is set,
disband it (a KeyError raised here would propagate to the caller, hence the
Except result). -/
def exec_finally (body : RunOutcome × ExecSt) : Except PyErr RunOutcome × ExecSt :=
  match body.2.current_team_id with
  | some tid =>
    match disband_team body.2.co tid with
    | .ok c2 => (.ok body.1, { body.2 with co := c2 })
    | .error err => (.error err, body.2)
  | none => (.ok body.1, body.2)

/-- WindowTaskExecutor.execute_all_tasks: the early 'running' return, then
the try body followed by the finally clause. -/
def execute_all_tasks (is_running : Bool) (w : WindowInfo) (seq : List TaskSpec)
    (st : ExecSt) : Except PyErr RunOutcome × ExecSt :=
  if is_running then
    (.ok ⟨"running", w.hwnd, none, none, none⟩, st)
  else
    exec_finally (exec_body w seq st)

/-! ### Orchestrator (DailyTasks.start_task) -/

/-- One element of the list produced by
asyncio.gather(*tasks, return_exceptions=True): either a task's return value
or the exception it raised. -/
inductive GatherEntry : Type
  | result (r : RunOutcome)
  | exception (e : PyErr)
  deriving Repr, DecidableEq

/-- The gather of all executors' execute_all_tasks coroutines.  asyncio runs
them concurrently on one cooperative event loop; the run is modelled by a
schedule that completes them in submission order over the shared coordinator
(each executor starts with a fresh current_team_id = None). -/
def gatherRun (avail : List Int) :
    List (WindowInfo × List TaskSpec) → Coordinator → Int →
      List GatherEntry × Coordinator × Int
  | [], c, now => ([], c, now)
  | (w, seq) :: rest, c, now =>
    let w2 : WindowInfo := { w with available_windows := avail }
    let r := execute_all_tasks false w2 seq ⟨c, now, none⟩
    let entry : GatherEntry :=
      match r.1 with
      | .ok out => .result out
      | .error e => .exception e
    let tail := gatherRun avail rest r.2.co r.2.now
    (entry :: tail.1, tail.2.1, tail.2.2)

/-- Observable outcome of one DailyTasks.start_task call.  `returned` is the
function's Python return value: the source has no return statement with a
value on any path (the result-collection lines are commented out), so every
path returns None; the gathered per-executor results are kept here only to
state what the run produced and then discarded. -/
structure StartTaskRun : Type where
  returned : Option (List GatherEntry)
  message_box : Option String
  gathered : List GatherEntry
  co : Coordinator
  deriving Repr, DecidableEq

/-- DailyTasks.start_task: reject an empty selection or a run already in
progress with a message box (no work scheduled); otherwise install
available_windows on every window_info, run one executor per window, await
the gather, and return None. -/
def start_task (is_running : Bool) (c : Coordinator) (now : Int)
    (selected : List (WindowInfo × List TaskSpec)) : StartTaskRun :=
  if selected.isEmpty then
    ⟨none, some "请先选择要启动的窗口", [], c⟩
  else if is_running then
    ⟨none, some "任务正在执行中，请等待完成", [], c⟩
  else
    let avail := selected.map (fun p => p.1.hwnd)
    let r := gatherRun avail selected c now
    ⟨none, none, r.1, r.2.1⟩

/-! ### GameAutomationManager (bounded-concurrency submission)

_run_task_with_limit wraps every submitted body in
`async with self.semaphore` where the semaphore counts max_concurrent
permits.  The interleaving of the event loop is modelled as a transition
system over counters: `pending` coroutines created by submit_task that have
not yet entered the async-with, `avail` free permits, `running` bodies
currently executing inside the async-with.  A body starts only by taking a
permit (acquire) and the permit is returned when the body finishes or
raises (release, the async-with exit). -/

/-- Counters of a GameAutomationManager run. -/
structure MgrState : Type where
  pending : Nat
  avail : Nat
  running : Nat
  deriving Repr, DecidableEq

/-- Event-loop steps of the bounded task manager with capacity K. -/
inductive MgrStep (K : Nat) : MgrState → MgrState → Prop
  | submit (p a r : Nat) : MgrStep K ⟨p, a, r⟩ ⟨p + 1, a, r⟩
  | acquire (p a r : Nat) : MgrStep K ⟨p + 1, a + 1, r⟩ ⟨p, a, r + 1⟩
  | release (p a r : Nat) : MgrStep K ⟨p, a, r + 1⟩ ⟨p, a + 1, r⟩

/-- A fresh GameAutomationManager(max_concurrent = K): no tasks, K permits. -/
def mgrInit (K : Nat) : MgrState := ⟨0, K, 0⟩

/-- States an execution of the manager can reach from a fresh instance. -/
def MgrReachable (K : Nat) (s : MgrState) : Prop :=
  Relation.ReflTransGen (MgrStep K) (mgrInit K) s

/-! ### Coordinator operation traces (for the lifecycle claims) -/

/-- One mutating coordinator call issued by some client.  The id passed to
setReady/disband is whatever string the caller retained; the timestamp
argument of create is the int(time.time()) observed at that call. -/
inductive CoordOp : Type
  | create (task_name : String) (leader : Int) (members : List Int) (now : Int)
  | setReady (team_id : String)
  | disband (team_id : String)
  deriving Repr, DecidableEq

/-- Apply one coordinator call to the registry state. -/
def opApply (c : Coordinator) : CoordOp → Except PyErr Coordinator
  | .create t l ms n => .ok (create_team c t l ms n).2
  | .setReady id => set_team_ready c id
  | .disband id => disband_team c id

/-- Run a sequence of coordinator calls, stopping at the first exception. -/
def runOps (c : Coordinator) : List CoordOp → Except PyErr Coordinator
  | [] => .ok c
  | op :: rest =>
    match opApply c op with
    | .ok c2 => runOps c2 rest
    | .error e => .error e

/-- The team ids generated by the create calls of a trace, in order. -/
def createdIds (ops : List CoordOp) : List String :=
  ops.filterMap (fun op =>
    match op with
    | .create t l _ n => some (make_team_id t l n)
    | _ => none)

/-! ### Association-list (dict) lemmas -/

@[simp]
theorem dictGet_insert_self {β : Type} (m : List (String × β)) (k : String) (v : β) :
    dictGet (dictInsert m k v) k = some v := by
  induction m with
  | nil => simp [dictInsert, dictGet]
  | cons p rest ih =>
    obtain ⟨k1, v1⟩ := p
    by_cases h : k1 = k
    · simp [dictInsert, dictGet, h]
    · simp [dictInsert, dictGet, h, ih]

theorem dictGet_insert_ne {β : Type} (m : List (String × β)) (k q : String) (v : β)
    (h : q ≠ k) : dictGet (dictInsert m k v) q = dictGet m q := by
  induction m with
  | nil => simp [dictInsert, dictGet, Ne.symm h]
  | cons p rest ih =>
    obtain ⟨k1, v1⟩ := p
    by_cases h1 : k1 = k
    · subst h1
      simp [dictInsert, dictGet, Ne.symm h]
    · by_cases h2 : k1 = q
      · subst h2
        simp [dictInsert, dictGet, h1]
      · simp [dictInsert, dictGet, h1, h2, ih]

@[simp]
theorem dictGet_erase_self {β : Type} (m : List (String × β)) (k : String) :
    dictGet (dictErase m k) k = none := by
  induction m with
  | nil => simp [dictErase, dictGet]
  | cons p rest ih =>
    obtain ⟨k1, v1⟩ := p
    by_cases h : k1 = k
    · simpa [dictErase, dictGet, h] using ih
    · simpa [dictErase, dictGet, h] using ih

theorem dictGet_erase_ne {β : Type} (m : List (String × β)) (k q : String)
    (h : q ≠ k) : dictGet (dictErase m k) q = dictGet m q := by
  induction m with
  | nil => simp [dictErase, dictGet]
  | cons p rest ih =>
    obtain ⟨k1, v1⟩ := p
    by_cases h1 : k1 = k
    · subst h1
      simpa [dictErase, dictGet, Ne.symm h] using ih
    · by_cases h2 : k1 = q
      · subst h2
        simp [dictErase, dictGet, h1]
      · simpa [dictErase, dictGet, h1, h2] using ih

theorem dictMem_eq_false_iff {β : Type} (m : List (String × β)) (k : String) :
    dictMem m k = false ↔ dictGet m k = none := by
  unfold dictMem
  cases dictGet m k <;> simp

theorem dictMem_eq_true_iff {β : Type} (m : List (String × β)) (k : String) :
    dictMem m k = true ↔ ∃ v, dictGet m k = some v := by
  unfold dictMem
  cases dictGet m k <;> simp

theorem mem_dictKeys {β : Type} (m : List (String × β)) (k : String) :
    k ∈ dictKeys m ↔ dictMem m k = true := by
  induction m with
  | nil => simp [dictKeys, dictMem, dictGet]
  | cons p rest ih =>
    obtain ⟨k1, v1⟩ := p
    by_cases h : k1 = k
    · subst h
      simp [dictKeys, dictMem, dictGet]
    · simp [dictKeys, dictMem, dictGet, h, Ne.symm h] at ih ⊢
      exact ih

theorem dictInsert_get_self {β : Type} (m : List (String × β)) (k : String) (v : β)
    (h : dictGet m k = some v) : dictInsert m k v = m := by
  induction m with
  | nil => simp [dictGet] at h
  | cons p rest ih =>
    obtain ⟨k1, v1⟩ := p
    by_cases h1 : k1 = k
    · subst h1
      simp [dictGet] at h
      simp [dictInsert, h]
    · simp [dictGet, h1] at h
      simp [dictInsert, h1, ih h]

theorem dictKeys_insert {β : Type} (m : List (String × β)) (k : String) (v : β) :
    dictKeys (dictInsert m k v) =
      if k ∈ dictKeys m then dictKeys m else dictKeys m ++ [k] := by
  induction m with
  | nil => simp [dictInsert, dictKeys]
  | cons p rest ih =>
    obtain ⟨k1, v1⟩ := p
    by_cases h : k1 = k
    · subst h
      simp [dictInsert, dictKeys]
    · by_cases h2 : k ∈ dictKeys rest
      · simp [dictInsert, dictKeys, h, h2, Ne.symm h, ih]
      · simp [dictInsert, dictKeys, h, h2, Ne.symm h, ih]

theorem dictKeys_erase {β : Type} (m : List (String × β)) (k : String) :
    dictKeys (dictErase m k) = (dictKeys m).filter (fun q => q ≠ k) := by
  induction m with
  | nil => simp [dictErase, dictKeys]
  | cons p rest ih =>
    obtain ⟨k1, v1⟩ := p
    by_cases h : k1 = k
    · simpa [dictErase, dictKeys, h] using ih
    · simpa [dictErase, dictKeys, h] using ih

theorem dictMem_eq_of_keys_eq {β γ : Type} (m1 : List (String × β))
    (m2 : List (String × γ)) (h : dictKeys m1 = dictKeys m2) (k : String) :
    dictMem m1 k = dictMem m2 k := by
  have h1 := mem_dictKeys m1 k
  have h2 := mem_dictKeys m2 k
  rw [h] at h1
  cases hb1 : dictMem m1 k <;> cases hb2 : dictMem m2 k <;> simp_all

/-! ### Alignment of the three registry dicts -/

theorem aligned_mem_members (c : Coordinator) (hal : Aligned c) (id : String) :
    dictMem c.team_tasks id = dictMem c.team_members id :=
  dictMem_eq_of_keys_eq c.team_tasks c.team_members hal.1 id

theorem aligned_mem_events (c : Coordinator) (hal : Aligned c) (id : String) :
    dictMem c.team_tasks id = dictMem c.team_events id :=
  dictMem_eq_of_keys_eq c.team_tasks c.team_events hal.2 id

theorem aligned_create (c : Coordinator) (hal : Aligned c) (t : String) (l : Int)
    (ms : List Int) (n : Int) : Aligned (create_team c t l ms n).2 := by
  obtain ⟨h1, h2⟩ := hal
  unfold create_team Aligned
  simp [dictKeys_insert, ← h1, ← h2]

theorem aligned_set_team_ready (c : Coordinator) (hal : Aligned c) (id : String) :
    ∃ c2, set_team_ready c id = .ok c2 ∧ Aligned c2 ∧
      dictKeys c2.team_tasks = dictKeys c.team_tasks := by
  by_cases hm : dictMem c.team_tasks id = true
  · obtain ⟨info, hinfo⟩ := (dictMem_eq_true_iff c.team_tasks id).mp hm
    have hme : dictMem c.team_events id = true := by
      rw [← aligned_mem_events c hal id]; exact hm
    obtain ⟨ev, hev⟩ := (dictMem_eq_true_iff c.team_events id).mp hme
    have hkt : id ∈ dictKeys c.team_tasks := (mem_dictKeys c.team_tasks id).mpr hm
    have hke : id ∈ dictKeys c.team_events := (mem_dictKeys c.team_events id).mpr hme
    obtain ⟨h1, h2⟩ := hal
    refine ⟨{ c with
        team_tasks := dictInsert c.team_tasks id { info with status := "ready" }
        team_events := dictInsert c.team_events id true }, ?_, ⟨?_, ?_⟩, ?_⟩
    · unfold set_team_ready
      rw [if_pos hm, hinfo, hev]
    · rw [dictKeys_insert, if_pos hkt]
      exact h1
    · rw [dictKeys_insert, dictKeys_insert, if_pos hkt, if_pos hke]
      exact h2
    · rw [dictKeys_insert, if_pos hkt]
  · refine ⟨c, ?_, hal, rfl⟩
    unfold set_team_ready
    rw [if_neg hm]

theorem dictMem_erase_imp {β : Type} (m : List (String × β)) (id k : String)
    (h : dictMem (dictErase m id) k = true) : dictMem m k = true := by
  by_cases hk : k = id
  · subst hk
    rw [dictMem_eq_true_iff] at h
    obtain ⟨v, hv⟩ := h
    rw [dictGet_erase_self] at hv
    cases hv
  · rw [dictMem_eq_true_iff] at h ⊢
    rw [dictGet_erase_ne m id k hk] at h
    exact h

theorem aligned_disband (c : Coordinator) (hal : Aligned c) (id : String) :
    ∃ c2, disband_team c id = .ok c2 ∧ Aligned c2 ∧
      dictGet c2.team_tasks id = none ∧ dictGet c2.team_members id = none ∧
      dictGet c2.team_events id = none ∧
      (dictMem c.team_tasks id = false → c2 = c) ∧
      (∀ k, dictMem c2.team_tasks k = true → dictMem c.team_tasks k = true) := by
  by_cases hm : dictMem c.team_tasks id = true
  · have hmm : dictMem c.team_members id = true := by
      rw [← aligned_mem_members c hal id]; exact hm
    obtain ⟨h1, h2⟩ := hal
    refine ⟨⟨dictErase c.team_tasks id, dictErase c.team_members id,
        dictErase c.team_events id⟩, ?_, ⟨?_, ?_⟩, ?_, ?_, ?_, ?_, ?_⟩
    · unfold disband_team
      rw [if_pos hm, if_pos hmm]
    · simp only [dictKeys_erase, h1]
    · simp only [dictKeys_erase, h2]
    · exact dictGet_erase_self c.team_tasks id
    · exact dictGet_erase_self c.team_members id
    · exact dictGet_erase_self c.team_events id
    · intro hf; rw [hm] at hf; cases hf
    · exact fun k hk => dictMem_erase_imp c.team_tasks id k hk
  · have hf : dictMem c.team_tasks id = false := by simpa using hm
    have h1 : dictGet c.team_tasks id = none :=
      (dictMem_eq_false_iff c.team_tasks id).mp hf
    have h2 : dictGet c.team_members id = none := by
      apply (dictMem_eq_false_iff c.team_members id).mp
      rw [← aligned_mem_members c hal id]
      exact hf
    have h3 : dictGet c.team_events id = none := by
      apply (dictMem_eq_false_iff c.team_events id).mp
      rw [← aligned_mem_events c hal id]
      exact hf
    refine ⟨c, ?_, hal, h1, h2, h3, fun _ => rfl, fun k hk => hk⟩
    unfold disband_team
    rw [if_neg hm]

/-! ### Executor lemmas -/

theorem create_team_role_self (c : Coordinator) (t : String) (l : Int)
    (ms : List Int) (n : Int) :
    get_team_role (create_team c t l ms n).2 (create_team c t l ms n).1 l =
      .LEADER := by
  unfold create_team get_team_role
  simp [dictGet_insert_self]

theorem execute_team_task_st (st : ExecSt) (hwnd : Int) (avail : List Int)
    (spec : TaskSpec) :
    (execute_team_task st hwnd avail spec).2 = st ∨
    (execute_team_task st hwnd avail spec).2 =
      { st with
          co := (create_team st.co spec.name hwnd
            (get_teammates_for_task hwnd avail spec.team_size) st.now).2
          current_team_id := some (create_team st.co spec.name hwnd
            (get_teammates_for_task hwnd avail spec.team_size) st.now).1 } := by
  simp only [execute_team_task]
  by_cases hemp : (get_teammates_for_task hwnd avail spec.team_size).isEmpty = true
  · rw [if_pos hemp]
    exact Or.inl rfl
  · rw [if_neg hemp, create_team_role_self st.co spec.name hwnd
      (get_teammates_for_task hwnd avail spec.team_size) st.now]
    cases hb : spec.behavior with
    | ok d => exact Or.inr rfl
    | throws e => exact Or.inr rfl

theorem execute_single_task_st (st : ExecSt) (hwnd : Int) (avail : List Int)
    (spec : TaskSpec) :
    (execute_single_task st hwnd avail spec).2 = st ∨
    (execute_single_task st hwnd avail spec).2 =
      { st with
          co := (create_team st.co spec.name hwnd
            (get_teammates_for_task hwnd avail spec.team_size) st.now).2
          current_team_id := some (create_team st.co spec.name hwnd
            (get_teammates_for_task hwnd avail spec.team_size) st.now).1 } := by
  simp only [execute_single_task]
  by_cases hteam : spec.is_team_task = true
  · rw [if_pos hteam]
    exact execute_team_task_st st hwnd avail spec
  · rw [if_neg hteam]
    exact Or.inl rfl

theorem exec_single_aligned (st : ExecSt) (hwnd : Int) (avail : List Int)
    (spec : TaskSpec) (hal : Aligned st.co) :
    Aligned (execute_single_task st hwnd avail spec).2.co := by
  rcases execute_single_task_st st hwnd avail spec with h | h
  · rw [h]; exact hal
  · rw [h]
    exact aligned_create st.co hal spec.name hwnd
      (get_teammates_for_task hwnd avail spec.team_size) st.now

theorem exec_single_result (st : ExecSt) (hwnd : Int) (avail : List Int)
    (spec : TaskSpec) :
    (∀ msg, spec.behavior = .throws msg →
      (execute_single_task st hwnd avail spec).1 = .error msg) ∧
    (∀ d, spec.behavior = .ok d →
      ∃ res, (execute_single_task st hwnd avail spec).1 = .ok res) := by
  constructor
  · intro msg hmsg
    simp only [execute_single_task, execute_team_task]
    by_cases hteam : spec.is_team_task = true
    · rw [if_pos hteam]
      by_cases hemp : (get_teammates_for_task hwnd avail spec.team_size).isEmpty = true
      · rw [if_pos hemp, hmsg]
        rfl
      · rw [if_neg hemp, create_team_role_self st.co spec.name hwnd
          (get_teammates_for_task hwnd avail spec.team_size) st.now, hmsg]
    · rw [if_neg hteam, hmsg]
      rfl
  · intro d hd
    simp only [execute_single_task, execute_team_task]
    by_cases hteam : spec.is_team_task = true
    · rw [if_pos hteam]
      by_cases hemp : (get_teammates_for_task hwnd avail spec.team_size).isEmpty = true
      · rw [if_pos hemp, hd]
        exact ⟨_, rfl⟩
      · rw [if_neg hemp, create_team_role_self st.co spec.name hwnd
          (get_teammates_for_task hwnd avail spec.team_size) st.now, hd]
        exact ⟨_, rfl⟩
    · rw [if_neg hteam, hd]
      exact ⟨_, rfl⟩

theorem runLoop_aligned (hwnd : Int) (avail : List Int) :
    ∀ (seq : List TaskSpec) (st : ExecSt) (results : List (String × TaskEntry)),
      Aligned st.co → Aligned (runLoop hwnd avail seq st results).2.co := by
  intro seq
  induction seq with
  | nil => intro st results hal; exact hal
  | cons spec rest ih =>
    intro st results hal
    simp only [runLoop]
    apply ih
    exact exec_single_aligned st hwnd avail spec hal

theorem runLoop_lookup_frozen (hwnd : Int) (avail : List Int) (k : String) :
    ∀ (seq : List TaskSpec) (st : ExecSt) (results : List (String × TaskEntry)),
      (∀ spec, spec ∈ seq → spec.name ≠ k) →
      dictGet (runLoop hwnd avail seq st results).1 k = dictGet results k := by
  intro seq
  induction seq with
  | nil => intro st results _; rfl
  | cons spec rest ih =>
    intro st results hk
    simp only [runLoop]
    rw [ih _ _ (fun s hs => hk s (List.mem_cons_of_mem spec hs))]
    exact dictGet_insert_ne results spec.name k _
      (fun hh => hk spec (List.mem_cons_self spec rest) hh.symm)

theorem runLoop_entry (hwnd : Int) (avail : List Int) :
    ∀ (seq : List TaskSpec) (st : ExecSt) (results : List (String × TaskEntry)),
      (seq.map TaskSpec.name).Nodup →
      ∀ spec, spec ∈ seq →
        ∃ e, dictGet (runLoop hwnd avail seq st results).1 spec.name = some e ∧
          e.duration = spec.duration ∧
          (∀ msg, spec.behavior = .throws msg →
            e.status = "failed" ∧ e.error = some msg) ∧
          (∀ d, spec.behavior = .ok d →
            e.status = "success" ∧ e.error = none) := by
  intro seq
  induction seq with
  | nil => intro st results _ spec hmem; cases hmem
  | cons spec0 rest ih =>
    intro st results hnd spec hmem
    rcases List.mem_cons.mp hmem with heq | hmem2
    · subst heq
      have hnot : ∀ s, s ∈ rest → s.name ≠ spec.name := by
        intro s hs hh
        have h1 : spec.name ∉ rest.map TaskSpec.name :=
          (List.nodup_cons.mp (by simpa using hnd)).1
        exact h1 (hh ▸ List.mem_map_of_mem TaskSpec.name hs)
      simp only [runLoop]
      rw [runLoop_lookup_frozen hwnd avail spec.name rest _ _ hnot,
        dictGet_insert_self]
      refine ⟨_, rfl, ?_, ?_, ?_⟩
      · cases hres : (execute_single_task st hwnd avail spec).1 <;> rfl
      · intro msg hmsg
        have hr := (exec_single_result st hwnd avail spec).1 msg hmsg
        rw [hr]
        exact ⟨rfl, rfl⟩
      · intro d hd
        obtain ⟨res, hr⟩ := (exec_single_result st hwnd avail spec).2 d hd
        rw [hr]
        exact ⟨rfl, rfl⟩
    · exact ih _ _ ((List.nodup_cons.mp (by simpa using hnd)).2) spec hmem2

theorem exec_body_connect_ok (w : WindowInfo) (seq : List TaskSpec) (st : ExecSt)
    (hc : w.connect_error = none) :
    exec_body w seq st =
      (⟨"success", w.hwnd, some (runLoop w.hwnd w.available_windows seq st []).1,
          none, some (runLoop w.hwnd w.available_windows seq st []).2.now⟩,
        (runLoop w.hwnd w.available_windows seq st []).2) := by
  unfold exec_body
  rw [hc]

theorem exec_body_connect_fail (w : WindowInfo) (seq : List TaskSpec) (st : ExecSt)
    (e : String) (hc : w.connect_error = some e) :
    exec_body w seq st = (⟨"failed", w.hwnd, none, some e, some st.now⟩, st) := by
  unfold exec_body
  rw [hc]

theorem exec_finally_spec (body : RunOutcome × ExecSt) (hal : Aligned body.2.co) :
    ∃ st2, exec_finally body = (.ok body.1, st2) ∧ Aligned st2.co ∧
      st2.current_team_id = body.2.current_team_id ∧
      st2.now = body.2.now ∧
      (∀ tid, st2.current_team_id = some tid →
        dictGet st2.co.team_tasks tid = none ∧
        dictGet st2.co.team_members tid = none ∧
        dictGet st2.co.team_events tid = none) := by
  cases hcur : body.2.current_team_id with
  | none =>
    refine ⟨body.2, ?_, hal, hcur, rfl, ?_⟩
    · unfold exec_finally
      rw [hcur]
    · intro tid h
      rw [hcur] at h
      cases h
  | some tid0 =>
    obtain ⟨c2, hdis, hal2, g1, g2, g3, _, _⟩ := aligned_disband body.2.co hal tid0
    refine ⟨{ body.2 with co := c2 }, ?_, hal2, hcur, rfl, ?_⟩
    · unfold exec_finally
      rw [hcur]
      simp only [hdis]
    · intro tid h
      have h2 : some tid0 = some tid := by
        rw [← hcur]
        exact h
      injection h2 with h3
      subst h3
      exact ⟨g1, g2, g3⟩

theorem execute_all_tasks_ok (w : WindowInfo) (seq : List TaskSpec) (st : ExecSt)
    (hal : Aligned st.co) :
    ∃ out st2, execute_all_tasks false w seq st = (.ok out, st2) ∧
      out.hwnd = w.hwnd ∧ Aligned st2.co ∧
      (∀ tid, st2.current_team_id = some tid →
        dictGet st2.co.team_tasks tid = none ∧
        dictGet st2.co.team_members tid = none ∧
        dictGet st2.co.team_events tid = none) ∧
      (w.connect_error = none →
        out = ⟨"success", w.hwnd,
          some (runLoop w.hwnd w.available_windows seq st []).1, none,
          some (runLoop w.hwnd w.available_windows seq st []).2.now⟩) := by
  have hbal : Aligned (exec_body w seq st).2.co := by
    cases hc : w.connect_error with
    | none =>
      rw [exec_body_connect_ok w seq st hc]
      exact runLoop_aligned w.hwnd w.available_windows seq st [] hal
    | some e =>
      rw [exec_body_connect_fail w seq st e hc]
      exact hal
  obtain ⟨st2, hfin, hal2, hcur, hnow, hgone⟩ :=
    exec_finally_spec (exec_body w seq st) hbal
  refine ⟨(exec_body w seq st).1, st2, ?_, ?_, hal2, hgone, ?_⟩
  · show exec_finally (exec_body w seq st) = _
    exact hfin
  · cases hc : w.connect_error with
    | none => rw [exec_body_connect_ok w seq st hc]
    | some e => rw [exec_body_connect_fail w seq st e hc]
  · intro hc
    rw [exec_body_connect_ok w seq st hc]

/-! ### Claim C5 -/

/-- Claim C5: for every task of one client's pipeline (with distinct task
names, as configured), the executor records one result entry per task: if
the task's body throws, the entry is FAILED and carries the error message
and the elapsed duration, and subsequent tasks of the same pipeline still
run and get their own entries (an entry exists for every task of the
sequence, whatever any earlier task did). -/
theorem pipeline_isolates_task_failures (w : WindowInfo) (seq : List TaskSpec)
    (st : ExecSt) (hconn : w.connect_error = none) (hal : Aligned st.co)
    (hnd : (seq.map TaskSpec.name).Nodup) :
    ∃ out st2 results, execute_all_tasks false w seq st = (.ok out, st2) ∧
      out.status = "success" ∧ out.task_results = some results ∧
      ∀ spec, spec ∈ seq → ∃ e, dictGet results spec.name = some e ∧
        e.duration = spec.duration ∧
        (∀ msg, spec.behavior = .throws msg →
          e.status = "failed" ∧ e.error = some msg) ∧
        (∀ d, spec.behavior = .ok d →
          e.status = "success" ∧ e.error = none) := by
  obtain ⟨out, st2, heq, hh, hal2, hgone, hres⟩ := execute_all_tasks_ok w seq st hal
  have hout := hres hconn
  subst hout
  refine ⟨_, st2, (runLoop w.hwnd w.available_windows seq st []).1, heq, rfl, rfl, ?_⟩
  intro spec hmem
  exact runLoop_entry w.hwnd w.available_windows seq st [] hnd spec hmem

/-- Witness for C5: a two-task pipeline whose first task throws "boom"; the
first entry is failed with the message and its duration, and the second task
still ran and has a success entry. -/
theorem pipeline_isolates_task_failures_witness :
    ∃ out st2 results, execute_all_tasks false ⟨1, none, []⟩
        [⟨"t1", false, 0, .throws "boom", 3⟩, ⟨"t2", false, 0, .ok "d", 2⟩]
        ⟨emptyCoordinator, 0, none⟩ = (.ok out, st2) ∧
      out.status = "success" ∧ out.task_results = some results ∧
      ∀ spec, spec ∈ ([⟨"t1", false, 0, .throws "boom", 3⟩,
          ⟨"t2", false, 0, .ok "d", 2⟩] : List TaskSpec) →
        ∃ e, dictGet results spec.name = some e ∧
          e.duration = spec.duration ∧
          (∀ msg, spec.behavior = .throws msg →
            e.status = "failed" ∧ e.error = some msg) ∧
          (∀ d, spec.behavior = .ok d →
            e.status = "success" ∧ e.error = none) :=
  pipeline_isolates_task_failures ⟨1, none, []⟩
    [⟨"t1", false, 0, .throws "boom", 3⟩, ⟨"t2", false, 0, .ok "d", 2⟩]
    ⟨emptyCoordinator, 0, none⟩ rfl (by decide) (by decide)

/-! ### Claim C4 -/

/-- Claim C4 counterexample: the claim states that whenever the executor
runs a team task through the coordinator, the team is absent from the
registry after the executor's run.  In a pipeline with two team tasks the
executor's only cleanup is the finally block, which disbands just the last
current_team_id: the team "A_1_0" formed by the first team task ran through
the coordinator (its entry records team_id "A_1_0") yet is still registered
after the run. -/
theorem executor_leaks_first_team_cex :
    dictMem (execute_all_tasks false ⟨1, none, [1, 2]⟩
        [⟨"A", true, 2, .ok "x", 1⟩, ⟨"B", true, 2, .ok "y", 1⟩]
        ⟨emptyCoordinator, 0, none⟩).2.co.team_tasks "A_1_0" = true ∧
    (((execute_all_tasks false ⟨1, none, [1, 2]⟩
        [⟨"A", true, 2, .ok "x", 1⟩, ⟨"B", true, 2, .ok "y", 1⟩]
        ⟨emptyCoordinator, 0, none⟩).1.toOption.bind
          (fun o => o.task_results)).bind
        (fun r => dictGet r "A")).map (fun e => e.team_id) =
      some (some "A_1_0") := by
  refine ⟨by decide, by decide⟩

/-- Claim C4 amended: the executor's cleanup disbands only the most recently
created team: whatever the run did (task successes or failures, connect
failure included), if the executor's current_team_id is set after the run
then that team id is absent from team_tasks, team_members and team_events.
Teams formed by earlier team tasks of the same pipeline are not disbanded by
this executor (see the counterexample). -/
theorem executor_disbands_last_team (w : WindowInfo) (seq : List TaskSpec)
    (st : ExecSt) (hal : Aligned st.co) :
    ∀ out st2, execute_all_tasks false w seq st = (out, st2) →
      ∀ tid, st2.current_team_id = some tid →
        dictGet st2.co.team_tasks tid = none ∧
        dictGet st2.co.team_members tid = none ∧
        dictGet st2.co.team_events tid = none := by
  intro out st2 heq tid htid
  obtain ⟨out2, st3, heq2, _, _, hgone, _⟩ := execute_all_tasks_ok w seq st hal
  rw [heq] at heq2
  injection heq2 with h1 h2
  subst h2
  exact hgone tid htid

/-- Witness for C4 amended: a single team task whose body throws; the team
"A_1_0" was created, the task failed, and after the run the registry no
longer contains the id. -/
theorem executor_disbands_last_team_witness :
    dictGet (execute_all_tasks false ⟨1, none, [1, 2]⟩
        [⟨"A", true, 2, .throws "boom", 1⟩]
        ⟨emptyCoordinator, 0, none⟩).2.co.team_tasks "A_1_0" = none ∧
    dictGet (execute_all_tasks false ⟨1, none, [1, 2]⟩
        [⟨"A", true, 2, .throws "boom", 1⟩]
        ⟨emptyCoordinator, 0, none⟩).2.co.team_members "A_1_0" = none ∧
    dictGet (execute_all_tasks false ⟨1, none, [1, 2]⟩
        [⟨"A", true, 2, .throws "boom", 1⟩]
        ⟨emptyCoordinator, 0, none⟩).2.co.team_events "A_1_0" = none :=
  executor_disbands_last_team ⟨1, none, [1, 2]⟩
    [⟨"A", true, 2, .throws "boom", 1⟩] ⟨emptyCoordinator, 0, none⟩
    (by decide) _ _ rfl "A_1_0" (by decide)

/-! ### Claim C2 -/

/-- Claim C2 counterexample: the claim states that start_task returns a
RunReport with one top-level entry per selected client.  The source's
start_task has no return statement carrying a value on the run path (the
result-collection lines are commented out): it awaits the gather — which
does produce one entry for the selected client — and then returns None, so
the caller receives no report at all. -/
theorem start_task_returns_no_report_cex :
    (start_task false emptyCoordinator 0
      [(⟨1, none, []⟩, [⟨"t", false, 0, .ok "d", 3⟩])]).returned = none ∧
    (start_task false emptyCoordinator 0
      [(⟨1, none, []⟩, [⟨"t", false, 0, .ok "d", 3⟩])]).gathered.length = 1 := by
  refine ⟨rfl, by decide⟩

theorem gatherRun_spec (avail : List Int) :
    ∀ (sel : List (WindowInfo × List TaskSpec)) (c : Coordinator) (now : Int),
      Aligned c →
      (gatherRun avail sel c now).1.length = sel.length ∧
      (∀ (i : Nat) (w : WindowInfo) (seq : List TaskSpec), sel[i]? = some (w, seq) →
        ∃ out, (gatherRun avail sel c now).1[i]? = some (.result out) ∧
          out.hwnd = w.hwnd) := by
  intro sel
  induction sel with
  | nil =>
    intro c now _
    refine ⟨rfl, ?_⟩
    intro i w seq h
    simp at h
  | cons p rest ih =>
    intro c now hal
    obtain ⟨w0, seq0⟩ := p
    obtain ⟨out, st2, heq, hh, hal2, _, _⟩ :=
      execute_all_tasks_ok { w0 with available_windows := avail } seq0
        ⟨c, now, none⟩ hal
    constructor
    · simp only [gatherRun, heq]
      simpa using (ih st2.co st2.now hal2).1
    · intro i w seq h
      cases i with
      | zero =>
        simp only [List.getElem?_cons_zero] at h
        injection h with h2
        injection h2 with hw hseq
        subst hw
        refine ⟨out, ?_, hh⟩
        simp only [gatherRun, heq, List.getElem?_cons_zero]
      | succ j =>
        simp only [List.getElem?_cons_succ] at h
        obtain ⟨out2, hg, hhw⟩ := (ih st2.co st2.now hal2).2 j w seq h
        refine ⟨out2, ?_, hhw⟩
        simp only [gatherRun, heq, List.getElem?_cons_succ]
        exact hg

/-- Claim C2 amended: for every non-empty selection of N clients and any
aligned coordinator state, start_task runs one executor per client and the
awaited gather (return_exceptions=True) holds exactly N entries, the i-th
being the normal result of the i-th client — one entry per client and no
exception entry, however many tasks failed or connects raised.  But
start_task discards the gathered list and returns None: no RunReport is
handed to the caller (see the counterexample). -/
theorem start_task_gathers_all_clients (c : Coordinator) (now : Int)
    (selected : List (WindowInfo × List TaskSpec)) (hne : selected ≠ [])
    (hal : Aligned c) :
    (start_task false c now selected).returned = none ∧
    (start_task false c now selected).gathered.length = selected.length ∧
    (∀ (i : Nat) (w : WindowInfo) (seq : List TaskSpec),
      selected[i]? = some (w, seq) →
      ∃ out, (start_task false c now selected).gathered[i]? =
          some (.result out) ∧ out.hwnd = w.hwnd) := by
  have hemp : selected.isEmpty = false := by
    cases selected with
    | nil => exact absurd rfl hne
    | cons a l => rfl
  have hg := gatherRun_spec (selected.map (fun p => p.1.hwnd)) selected c now hal
  refine ⟨?_, ?_, ?_⟩
  · simp only [start_task, hemp]
    rfl
  · simp only [start_task, hemp]
    exact hg.1
  · intro i w seq h
    obtain ⟨out, hgi, hhw⟩ := hg.2 i w seq h
    refine ⟨out, ?_, hhw⟩
    simp only [start_task, hemp]
    exact hgi

/-- Witness for C2 amended: two selected clients — one whose only task
throws, one whose connect raises — still produce a gather of length two,
each entry being the corresponding client's result. -/
theorem start_task_gathers_all_clients_witness :
    (start_task false emptyCoordinator 0
      [(⟨1, none, []⟩, [⟨"t", false, 0, .throws "boom", 3⟩]),
       (⟨2, some "unreachable", []⟩, [])]).gathered.length = 2 :=
  (start_task_gathers_all_clients emptyCoordinator 0
    [(⟨1, none, []⟩, [⟨"t", false, 0, .throws "boom", 3⟩]),
     (⟨2, some "unreachable", []⟩, [])] (by decide) (by decide)).2.1

/-! ### Claim C6 -/

theorem mgr_permit_invariant (K : Nat) (s : MgrState) (h : MgrReachable K s) :
    s.avail + s.running = K := by
  induction h with
  | refl => rfl
  | tail h1 step ih =>
    cases step with
    | submit p a r => exact ih
    | acquire p a r =>
      show a + (r + 1) = K
      have ih2 : a + 1 + r = K := ih
      omega
    | release p a r =>
      show a + 1 + r = K
      have ih2 : a + (r + 1) = K := ih
      omega

/-- Claim C6: for the bounded task manager configured with
max_concurrent = K, in every state any execution can reach — any number of
submitted tasks included — the number of task bodies executing concurrently
inside the semaphore never exceeds K: a body runs only while holding one of
the K permits of `async with self.semaphore`. -/
theorem bounded_manager_concurrency_cap (K : Nat) (s : MgrState)
    (h : MgrReachable K s) : s.running ≤ K := by
  have hi := mgr_permit_invariant K s h
  omega

/-- Witness for C6: K = 2 with M = 3 submitted tasks; after both permits are
taken the state has 2 running bodies, and the theorem bounds it by 2. -/
theorem bounded_manager_concurrency_cap_witness :
    MgrReachable 2 ⟨1, 0, 2⟩ ∧ (⟨1, 0, 2⟩ : MgrState).running ≤ 2 := by
  have hreach : MgrReachable 2 ⟨1, 0, 2⟩ := by
    have r1 : Relation.ReflTransGen (MgrStep 2) (mgrInit 2) ⟨1, 2, 0⟩ :=
      Relation.ReflTransGen.tail Relation.ReflTransGen.refl (MgrStep.submit 0 2 0)
    have r2 := Relation.ReflTransGen.tail r1 (MgrStep.submit 1 2 0)
    have r3 := Relation.ReflTransGen.tail r2 (MgrStep.submit 2 2 0)
    have r4 := Relation.ReflTransGen.tail r3 (MgrStep.acquire 2 1 0)
    exact Relation.ReflTransGen.tail r4 (MgrStep.acquire 1 0 1)
  exact ⟨hreach, bounded_manager_concurrency_cap 2 ⟨1, 0, 2⟩ hreach⟩

/-! ### Claim C7 -/

theorem dictMem_insert_iff {β : Type} (m : List (String × β)) (k0 k : String)
    (v : β) :
    dictMem (dictInsert m k0 v) k = true ↔ k = k0 ∨ dictMem m k = true := by
  by_cases hk : k = k0
  · subst hk
    rw [dictMem_eq_true_iff]
    simp [dictGet_insert_self]
  · rw [dictMem_eq_true_iff, dictMem_eq_true_iff, dictGet_insert_ne m k0 k v hk]
    simp [hk]

theorem set_team_ready_mem (c : Coordinator) (id : String) (hal : Aligned c)
    (info : TeamInfo) (hinfo : dictGet c.team_tasks id = some info) :
    set_team_ready c id = .ok { c with
      team_tasks := dictInsert c.team_tasks id { info with status := "ready" }
      team_events := dictInsert c.team_events id true } := by
  have hm : dictMem c.team_tasks id = true :=
    (dictMem_eq_true_iff c.team_tasks id).mpr ⟨info, hinfo⟩
  have hme : dictMem c.team_events id = true := by
    rw [← aligned_mem_events c hal id]; exact hm
  obtain ⟨ev, hev⟩ := (dictMem_eq_true_iff c.team_events id).mp hme
  unfold set_team_ready
  rw [if_pos hm, hinfo, hev]

theorem set_team_ready_not_mem (c : Coordinator) (id : String)
    (hm : dictMem c.team_tasks id = false) : set_team_ready c id = .ok c := by
  unfold set_team_ready
  rw [if_neg (by simp [hm])]

theorem runOps_single (c : Coordinator) (op : CoordOp) :
    runOps c [op] = opApply c op := by
  cases h : opApply c op <;> simp [runOps, h]

theorem runOps_append (c : Coordinator) (ops1 ops2 : List CoordOp) :
    runOps c (ops1 ++ ops2) =
      match runOps c ops1 with
      | .ok c2 => runOps c2 ops2
      | .error e => .error e := by
  induction ops1 generalizing c with
  | nil => rfl
  | cons op rest ih =>
    show runOps c (op :: (rest ++ ops2)) = _
    cases h : opApply c op with
    | ok c2 =>
      simp only [runOps, h]
      exact ih c2
    | error e =>
      simp only [runOps, h]

theorem createdIds_append (ops1 ops2 : List CoordOp) :
    createdIds (ops1 ++ ops2) = createdIds ops1 ++ createdIds ops2 := by
  unfold createdIds
  exact List.filterMap_append ops1 ops2 _

/-- Running any trace of coordinator calls from an aligned state whose
registered ids all lie in S never raises, preserves alignment, and ends
with registered ids inside S plus the trace's created ids. -/
theorem runOps_aligned_keys :
    ∀ (ops : List CoordOp) (c : Coordinator) (S : List String),
      Aligned c → (∀ k, dictMem c.team_tasks k = true → k ∈ S) →
      ∃ c2, runOps c ops = .ok c2 ∧ Aligned c2 ∧
        (∀ k, dictMem c2.team_tasks k = true → k ∈ S ++ createdIds ops) := by
  intro ops
  induction ops with
  | nil =>
    intro c S hal hS
    exact ⟨c, rfl, hal, fun k hk => by simpa [createdIds] using hS k hk⟩
  | cons op rest ih =>
    intro c S hal hS
    cases op with
    | create t l ms n =>
      obtain ⟨c2, hrun, hal2, hkeys⟩ :=
        ih (create_team c t l ms n).2 (S ++ [make_team_id t l n])
          (aligned_create c hal t l ms n)
          (by
            intro k hk
            have hk2 := (dictMem_insert_iff c.team_tasks (make_team_id t l n) k
              ⟨t, l, ms, "forming", n⟩).mp hk
            rcases hk2 with h | h
            · simp [h]
            · simp [hS k h])
      refine ⟨c2, ?_, hal2, ?_⟩
      · show runOps c (CoordOp.create t l ms n :: rest) = .ok c2
        unfold runOps
        exact hrun
      · intro k hk
        have := hkeys k hk
        simp only [createdIds, List.filterMap_cons] at this ⊢
        simp only [List.mem_append, List.mem_cons, List.mem_singleton] at this ⊢
        tauto
    | setReady id =>
      obtain ⟨c1, hstep, hal1, hkeq⟩ := aligned_set_team_ready c hal id
      obtain ⟨c2, hrun, hal2, hkeys⟩ := ih c1 S hal1
        (by
          intro k hk
          apply hS k
          rw [← dictMem_eq_of_keys_eq c1.team_tasks c.team_tasks hkeq k]
          exact hk)
      refine ⟨c2, ?_, hal2, ?_⟩
      · show runOps c (CoordOp.setReady id :: rest) = .ok c2
        unfold runOps
        show (match opApply c (CoordOp.setReady id) with
          | .ok c2 => runOps c2 rest
          | .error e => .error e) = .ok c2
        rw [show opApply c (CoordOp.setReady id) = .ok c1 from hstep]
        exact hrun
      · intro k hk
        have := hkeys k hk
        simp only [createdIds, List.filterMap_cons] at this ⊢
        exact this
    | disband id =>
      obtain ⟨c1, hstep, hal1, _, _, _, _, hsub⟩ := aligned_disband c hal id
      obtain ⟨c2, hrun, hal2, hkeys⟩ := ih c1 S hal1
        (fun k hk => hS k (hsub k hk))
      refine ⟨c2, ?_, hal2, ?_⟩
      · show runOps c (CoordOp.disband id :: rest) = .ok c2
        unfold runOps
        show (match opApply c (CoordOp.disband id) with
          | .ok c2 => runOps c2 rest
          | .error e => .error e) = .ok c2
        rw [show opApply c (CoordOp.disband id) = .ok c1 from hstep]
        exact hrun
      · intro k hk
        have := hkeys k hk
        simp only [createdIds, List.filterMap_cons] at this ⊢
        exact this

theorem statusOf_create_self (c : Coordinator) (t : String) (l : Int)
    (ms : List Int) (n : Int) :
    statusOf (create_team c t l ms n).2 (make_team_id t l n) = some "forming" := by
  simp only [statusOf, create_team]
  rw [dictGet_insert_self]
  rfl

theorem eventSet_create_self (c : Coordinator) (t : String) (l : Int)
    (ms : List Int) (n : Int) :
    eventSet (create_team c t l ms n).2 (make_team_id t l n) = false := by
  simp only [eventSet, create_team]
  rw [dictGet_insert_self]
  rfl

theorem statusOf_create_other (c : Coordinator) (t : String) (l : Int)
    (ms : List Int) (n : Int) (id : String) (hid : id ≠ make_team_id t l n) :
    statusOf (create_team c t l ms n).2 id = statusOf c id := by
  simp only [statusOf, create_team]
  rw [dictGet_insert_ne c.team_tasks (make_team_id t l n) id _ hid]

theorem statusOf_mem (c : Coordinator) (id s : String)
    (h : statusOf c id = some s) : dictMem c.team_tasks id = true := by
  rw [dictMem_eq_true_iff]
  unfold statusOf at h
  cases hg : dictGet c.team_tasks id with
  | none => rw [hg] at h; simp at h
  | some info => exact ⟨info, rfl⟩

theorem statusOf_eq_none_iff (c : Coordinator) (id : String) :
    statusOf c id = none ↔ dictGet c.team_tasks id = none := by
  unfold statusOf
  cases dictGet c.team_tasks id <;> simp

theorem statusOf_mk (tt : List (String × TeamInfo)) (tm : List (String × List Int))
    (te : List (String × Bool)) (id : String) :
    statusOf ⟨tt, tm, te⟩ id = (dictGet tt id).map (fun info => info.status) := rfl

theorem eventSet_mk (tt : List (String × TeamInfo)) (tm : List (String × List Int))
    (te : List (String × Bool)) (id : String) :
    eventSet ⟨tt, tm, te⟩ id = (dictGet te id).getD false := rfl

/-- One mutating coordinator call never drives a record from READY back to
FORMING nor re-registers a previously created, already removed id — provided
a create call's generated id is fresh (the amendment C7 needs). -/
theorem step_no_backward (cp cq : Coordinator) (op : CoordOp)
    (hal : Aligned cp) (S : List String)
    (hkeys : ∀ k, dictMem cp.team_tasks k = true → k ∈ S)
    (hfr : ∀ t l ms n, op = .create t l ms n → make_team_id t l n ∉ S)
    (hstep : opApply cp op = .ok cq) :
    (∀ id, statusOf cp id = some "ready" → statusOf cq id ≠ some "forming") ∧
    (∀ id, id ∈ S → statusOf cp id = none → statusOf cq id = none) := by
  cases op with
  | create t l ms n =>
    have hq : cq = (create_team cp t l ms n).2 := by
      injection hstep with h
      exact h.symm
    subst hq
    have hfr2 : make_team_id t l n ∉ S := hfr t l ms n rfl
    constructor
    · intro id hready
      have hne : id ≠ make_team_id t l n := by
        intro hid
        apply hfr2
        rw [← hid]
        exact hkeys id (statusOf_mem cp id "ready" hready)
      rw [statusOf_create_other cp t l ms n id hne, hready]
      decide
    · intro id hidS hnone
      have hne : id ≠ make_team_id t l n := by
        intro hid
        exact hfr2 (hid ▸ hidS)
      rw [statusOf_create_other cp t l ms n id hne]
      exact hnone
  | setReady id0 =>
    by_cases hm : dictMem cp.team_tasks id0 = true
    · obtain ⟨info, hinfo⟩ := (dictMem_eq_true_iff cp.team_tasks id0).mp hm
      have heq := set_team_ready_mem cp id0 hal info hinfo
      have hq : cq = { cp with
          team_tasks := dictInsert cp.team_tasks id0 { info with status := "ready" }
          team_events := dictInsert cp.team_events id0 true } := by
        have h2 := hstep
        rw [show opApply cp (CoordOp.setReady id0) = set_team_ready cp id0 from rfl,
          heq] at h2
        injection h2 with h3
        exact h3.symm
      subst hq
      constructor
      · intro id hready
        rw [statusOf_mk]
        by_cases hid : id = id0
        · subst hid
          rw [dictGet_insert_self, Option.map_some']
          intro h
          injection h with h2
          have h3 : "ready" = "forming" := h2
          exact absurd h3 (by decide)
        · rw [dictGet_insert_ne cp.team_tasks id0 id _ hid]
          have h4 : (dictGet cp.team_tasks id).map (fun info => info.status) =
            some "ready" := hready
          rw [h4]
          decide
      · intro id hidS hnone
        rw [statusOf_mk]
        by_cases hid : id = id0
        · subst hid
          rw [statusOf_eq_none_iff] at hnone
          rw [hinfo] at hnone
          cases hnone
        · rw [dictGet_insert_ne cp.team_tasks id0 id _ hid]
          exact hnone
    · have hmf : dictMem cp.team_tasks id0 = false := by simpa using hm
      have hq : cq = cp := by
        have h2 := hstep
        rw [show opApply cp (CoordOp.setReady id0) = set_team_ready cp id0 from rfl,
          set_team_ready_not_mem cp id0 hmf] at h2
        injection h2 with h3
        exact h3.symm
      subst hq
      constructor
      · intro id hr
        rw [hr]
        decide
      · intro id _ hn
        exact hn
  | disband id0 =>
    have hdis : disband_team cp id0 = .ok cq := hstep
    by_cases hm : dictMem cp.team_tasks id0 = true
    · have hmm : dictMem cp.team_members id0 = true := by
        rw [← aligned_mem_members cp hal id0]
        exact hm
      have hq : cq = ⟨dictErase cp.team_tasks id0, dictErase cp.team_members id0,
          dictErase cp.team_events id0⟩ := by
        have h2 := hdis
        unfold disband_team at h2
        rw [if_pos hm, if_pos hmm] at h2
        injection h2 with h3
        exact h3.symm
      subst hq
      constructor
      · intro id hready
        rw [statusOf_mk]
        by_cases hid : id = id0
        · subst hid
          rw [dictGet_erase_self, Option.map_none']
          decide
        · rw [dictGet_erase_ne cp.team_tasks id0 id hid]
          have h4 : (dictGet cp.team_tasks id).map (fun info => info.status) =
            some "ready" := hready
          rw [h4]
          decide
      · intro id _ hnone
        rw [statusOf_mk]
        by_cases hid : id = id0
        · subst hid
          rw [dictGet_erase_self]
          rfl
        · rw [dictGet_erase_ne cp.team_tasks id0 id hid]
          exact hnone
    · have hq : cq = cp := by
        have h2 := hdis
        unfold disband_team at h2
        rw [if_neg hm] at h2
        injection h2 with h3
        exact h3.symm
      subst hq
      constructor
      · intro id hr
        rw [hr]
        decide
      · intro id _ hn
        exact hn

/-- On a state whose record at `id` is already READY with its event set,
set_team_ready is the identity (the readiness signal fires only once:
setting an already-set event and re-writing 'ready' change nothing). -/
theorem set_team_ready_fixed (c : Coordinator) (id : String) (hal : Aligned c)
    (info : TeamInfo) (hinfo : dictGet c.team_tasks id = some info)
    (hst : info.status = "ready") (hev : dictGet c.team_events id = some true) :
    set_team_ready c id = .ok c := by
  rw [set_team_ready_mem c id hal info hinfo]
  have h1 : { info with status := "ready" } = info := by
    cases info with
    | mk a b ms s ca =>
      have hd : s = "ready" := hst
      subst hd
      rfl
  rw [h1, dictInsert_get_self c.team_tasks id info hinfo,
    dictInsert_get_self c.team_events id true hev]

/-- Claim C7 counterexample: the claim says no coordinator operation ever
moves a record back from READY to FORMING.  Because create_team derives ids
from int(time.time()) (one-second resolution), a second create with the
same task name and leader in the same second reuses the id of a team that
was already set READY and overwrites its record with a fresh FORMING one:
after [create "a" by leader 1 at second 5; setReady "a_1_5"] the record is
READY, and one further create "a" by leader 1 at second 5 puts the same
record back to FORMING. -/
theorem team_status_ready_to_forming_cex :
    (runOps emptyCoordinator
      [.create "a" 1 [2] 5, .setReady "a_1_5"]).toOption.map
        (fun c => statusOf c "a_1_5") = some (some "ready") ∧
    (runOps emptyCoordinator
      [.create "a" 1 [2] 5, .setReady "a_1_5", .create "a" 1 [3] 5]).toOption.map
        (fun c => statusOf c "a_1_5") = some (some "forming") := by
  refine ⟨by decide, by decide⟩

/-- Claim C7 amended: for every trace of coordinator calls from a fresh
coordinator in which the create calls generate pairwise distinct ids (the
amendment forced by the second-resolution id collision of the
counterexample): no call raises; after each prefix, the next call satisfies
its lifecycle contract — a create registers its id as FORMING with the
signal unfired; set_team_ready on a registered id makes it READY with the
signal fired and doing it again is a no-op (the signal fires exactly once),
while on an unknown id it is a no-op; disband removes the record and its
signal — and no call moves a record from READY to FORMING or re-registers a
previously created id that was removed. -/
theorem coordinator_status_monotonic (ops : List CoordOp)
    (hfresh : (createdIds ops).Nodup) :
    (∃ c, runOps emptyCoordinator ops = .ok c) ∧
    (∀ pre op post, ops = pre ++ op :: post →
      ∃ cp cq, runOps emptyCoordinator pre = .ok cp ∧ opApply cp op = .ok cq ∧
        (∀ t l ms n, op = .create t l ms n →
          statusOf cq (make_team_id t l n) = some "forming" ∧
          eventSet cq (make_team_id t l n) = false) ∧
        (∀ id, op = .setReady id →
          (dictMem cp.team_tasks id = true →
            statusOf cq id = some "ready" ∧ eventSet cq id = true ∧
            opApply cq op = .ok cq) ∧
          (dictMem cp.team_tasks id = false → cq = cp)) ∧
        (∀ id, op = .disband id →
          statusOf cq id = none ∧ eventSet cq id = false) ∧
        (∀ id, statusOf cp id = some "ready" → statusOf cq id ≠ some "forming") ∧
        (∀ id, id ∈ createdIds pre → statusOf cp id = none →
          statusOf cq id = none)) := by
  have halE : Aligned emptyCoordinator := ⟨rfl, rfl⟩
  have hkeysE : ∀ k, dictMem emptyCoordinator.team_tasks k = true →
      k ∈ ([] : List String) := by
    intro k hk
    simp [dictMem, dictGet, emptyCoordinator] at hk
  constructor
  · obtain ⟨c2, hok, _, _⟩ := runOps_aligned_keys ops emptyCoordinator [] halE hkeysE
    exact ⟨c2, hok⟩
  · intro pre op post heq
    subst heq
    rw [createdIds_append] at hfresh
    have hnd := List.nodup_append.mp hfresh
    obtain ⟨cp, hpre, halp, hkeysp0⟩ :=
      runOps_aligned_keys pre emptyCoordinator [] halE hkeysE
    have hkeysp : ∀ k, dictMem cp.team_tasks k = true → k ∈ createdIds pre := by
      intro k hk
      simpa using hkeysp0 k hk
    obtain ⟨cq, hrun1, halq, _⟩ :=
      runOps_aligned_keys [op] cp (createdIds pre) halp hkeysp
    rw [runOps_single] at hrun1
    have hfrS : ∀ t l ms n, op = .create t l ms n →
        make_team_id t l n ∉ createdIds pre := by
      intro t l ms n hop hin
      subst hop
      have hmem2 : make_team_id t l n ∈
          createdIds (CoordOp.create t l ms n :: post) := by
        simp [createdIds]
      exact hnd.2.2 hin hmem2
    have hmono := step_no_backward cp cq op halp (createdIds pre) hkeysp hfrS hrun1
    refine ⟨cp, cq, hpre, hrun1, ?_, ?_, ?_, hmono.1, hmono.2⟩
    · intro t l ms n hop
      subst hop
      have hq : cq = (create_team cp t l ms n).2 := by
        injection hrun1 with h
        exact h.symm
      subst hq
      exact ⟨statusOf_create_self cp t l ms n, eventSet_create_self cp t l ms n⟩
    · intro id hop
      subst hop
      constructor
      · intro hm
        obtain ⟨info, hinfo⟩ := (dictMem_eq_true_iff cp.team_tasks id).mp hm
        have heq2 := set_team_ready_mem cp id halp info hinfo
        have hq : cq = { cp with
            team_tasks := dictInsert cp.team_tasks id { info with status := "ready" }
            team_events := dictInsert cp.team_events id true } := by
          have h2 : set_team_ready cp id = .ok cq := hrun1
          rw [heq2] at h2
          injection h2 with h3
          exact h3.symm
        subst hq
        refine ⟨?_, ?_, ?_⟩
        · rw [statusOf_mk, dictGet_insert_self, Option.map_some']
        · rw [eventSet_mk, dictGet_insert_self]
          rfl
        · show set_team_ready _ id = _
          exact set_team_ready_fixed _ id halq ({ info with status := "ready" })
            (dictGet_insert_self cp.team_tasks id _) rfl
            (dictGet_insert_self cp.team_events id true)
      · intro hmf
        have h2 : set_team_ready cp id = .ok cq := hrun1
        rw [set_team_ready_not_mem cp id hmf] at h2
        injection h2 with h3
        exact h3.symm
    · intro id hop
      subst hop
      obtain ⟨c1, hdis, _, g1, _, g3, _, _⟩ := aligned_disband cp halp id
      have hq : c1 = cq := by
        have h2 : disband_team cp id = .ok cq := hrun1
        rw [hdis] at h2
        exact Except.ok.inj h2
      subst hq
      constructor
      · rw [statusOf_eq_none_iff]
        exact g1
      · unfold eventSet
        rw [g3]
        rfl

/-- Witness for C7 amended: a collision-free three-call trace (create a
team, set it ready, disband it) satisfies the freshness hypothesis and the
theorem yields that the whole trace runs without an exception. -/
theorem coordinator_status_monotonic_witness :
    ∃ c, runOps emptyCoordinator
      [.create "a" 1 [2] 5, .setReady "a_1_5", .disband "a_1_5"] = .ok c :=
  (coordinator_status_monotonic
    [.create "a" 1 [2] 5, .setReady "a_1_5", .disband "a_1_5"] (by decide)).1

/-! ### Claim C1 -/

/-- Claim C1: the claim states that two create_team calls with the same
taskName and leader always return distinct teamIds, even within the same
wall-clock second.  The code derives the id from int(time.time()), which has
one-second resolution: two calls with the same task name and leader in the
same second return the very same id, and the second call silently overwrites
the first team's registry entries.  This theorem evaluates create_team at
such a failing input: both calls return the id "tianting_100_1700000000",
and after the second call the registry holds the second team's member list
under that id. -/
theorem create_team_id_collision_at_same_second :
    (create_team emptyCoordinator "tianting" 100 [] 1700000000).1 =
      (create_team (create_team emptyCoordinator "tianting" 100 [] 1700000000).2
        "tianting" 100 [2] 1700000000).1 ∧
    (create_team emptyCoordinator "tianting" 100 [] 1700000000).1 =
      "tianting_100_1700000000" ∧
    dictGet (create_team (create_team emptyCoordinator "tianting" 100 [] 1700000000).2
        "tianting" 100 [2] 1700000000).2.team_members "tianting_100_1700000000" =
      some [100, 2] := by
  refine ⟨rfl, by decide, by decide⟩

/-! ### Claim C3 -/

/-- Claim C3 counterexample: the claim states that wait_for_team_ready never
raises an exception to its caller, including when the teamId is unknown or
already disbanded.  On a coordinator that does not know the id (here: a
fresh one), `self.team_events[team_id]` raises a KeyError before any waiting
happens — only asyncio.TimeoutError is caught — so the call raises instead
of returning a Boolean. -/
theorem wait_for_team_ready_unknown_id_raises_cex :
    wait_for_team_ready emptyCoordinator "tianting_100_1700000000" true =
      .error (.keyError "tianting_100_1700000000") := by
  rfl

/-- Claim C3 amended: for a teamId registered in the coordinator,
wait_for_team_ready returns true exactly when the readiness signal is
already set or fires before the timeout elapses, returns false at/after the
timeout, and never raises; for an unknown or already-disbanded teamId it
raises a KeyError instead of returning false.  (`fired` abstracts whether
set_team_ready fires the signal strictly before the timeout elapses.) -/
theorem wait_for_team_ready_amended (c : Coordinator) (team_id : String)
    (fired : Bool) :
    (dictMem c.team_events team_id = true →
      wait_for_team_ready c team_id fired = .ok (eventSet c team_id || fired)) ∧
    (dictMem c.team_events team_id = false →
      wait_for_team_ready c team_id fired = .error (.keyError team_id)) := by
  unfold wait_for_team_ready dictMem eventSet
  cases dictGet c.team_events team_id <;> simp

/-- Witness for C3 amended, on the coordinator state right after a
create_team call: the id is registered, its signal is unset, and a signal
firing before the timeout makes the call return ok true. -/
theorem wait_for_team_ready_amended_witness :
    wait_for_team_ready (create_team emptyCoordinator "a" 1 [2] 5).2
      "a_1_5" true = .ok true := by
  have h := (wait_for_team_ready_amended
    (create_team emptyCoordinator "a" 1 [2] 5).2 "a_1_5" true).1 (by decide)
  simpa using h

/-! ### Claim C8 -/

/-- Claim C8: disband_team is idempotent.  On any coordinator state whose
three registry dicts are aligned (which holds for every reachable state),
disbanding never raises, a single call removes the id from team_tasks,
team_members and team_events together, a second call returns with the
registry unchanged, and a call on an id that was never created leaves the
registry exactly as it was. -/
theorem disband_team_idempotent (c : Coordinator) (team_id : String)
    (hal : Aligned c) :
    ∃ c2, disband_team c team_id = .ok c2 ∧
      disband_team c2 team_id = .ok c2 ∧
      dictGet c2.team_tasks team_id = none ∧
      dictGet c2.team_members team_id = none ∧
      dictGet c2.team_events team_id = none ∧
      (dictMem c.team_tasks team_id = false → c2 = c) := by
  obtain ⟨c2, h1, hal2, g1, g2, g3, hid, _⟩ := aligned_disband c hal team_id
  refine ⟨c2, h1, ?_, g1, g2, g3, hid⟩
  have hm : dictMem c2.team_tasks team_id = false :=
    (dictMem_eq_false_iff c2.team_tasks team_id).mpr g1
  have hm2 : ¬ dictMem c2.team_tasks team_id = true := by simp [hm]
  unfold disband_team
  rw [if_neg hm2]

/-- Witness for C8 on the state holding one freshly created team. -/
theorem disband_team_idempotent_witness :
    ∃ c2, disband_team (create_team emptyCoordinator "a" 1 [2] 5).2 "a_1_5" = .ok c2 ∧
      disband_team c2 "a_1_5" = .ok c2 ∧
      dictGet c2.team_tasks "a_1_5" = none ∧
      dictGet c2.team_members "a_1_5" = none ∧
      dictGet c2.team_events "a_1_5" = none ∧
      (dictMem (create_team emptyCoordinator "a" 1 [2] 5).2.team_tasks "a_1_5" = false →
        c2 = (create_team emptyCoordinator "a" 1 [2] 5).2) :=
  disband_team_idempotent (create_team emptyCoordinator "a" 1 [2] 5).2 "a_1_5"
    (by decide)

/-! ### Claim C9 -/

/-- Claim C9: get_team_role returns LEADER when the handle is the recorded
leader of a registered team, MEMBER when it is (properly) in the recorded
member list, SOLO for any other handle, and SOLO for every unknown or
already-disbanded teamId regardless of the handle. -/
theorem get_team_role_spec (c : Coordinator) (team_id : String) (hwnd : Int) :
    (dictGet c.team_tasks team_id = none →
      get_team_role c team_id hwnd = .SOLO) ∧
    (∀ info, dictGet c.team_tasks team_id = some info →
      (hwnd = info.leader → get_team_role c team_id hwnd = .LEADER) ∧
      (hwnd ≠ info.leader → hwnd ∈ info.members →
        get_team_role c team_id hwnd = .MEMBER) ∧
      (hwnd ≠ info.leader → hwnd ∉ info.members →
        get_team_role c team_id hwnd = .SOLO)) := by
  constructor
  · intro h
    unfold get_team_role
    rw [h]
  · intro info h
    unfold get_team_role
    rw [h]
    refine ⟨fun hL => ?_, fun hne hmem => ?_, fun hne hnm => ?_⟩
    · simp only [if_pos hL]
    · simp only [if_neg hne, if_pos hmem]
    · simp only [if_neg hne, if_neg hnm]

/-- Witness for C9 on a team with leader 1 and members [2, 3]. -/
theorem get_team_role_spec_witness :
    get_team_role (create_team emptyCoordinator "a" 1 [2, 3] 5).2 "a_1_5" 1 = .LEADER ∧
    get_team_role (create_team emptyCoordinator "a" 1 [2, 3] 5).2 "a_1_5" 2 = .MEMBER ∧
    get_team_role (create_team emptyCoordinator "a" 1 [2, 3] 5).2 "a_1_5" 7 = .SOLO ∧
    get_team_role emptyCoordinator "a_1_5" 1 = .SOLO := by
  refine ⟨?_, ?_, ?_, ?_⟩
  · exact ((get_team_role_spec (create_team emptyCoordinator "a" 1 [2, 3] 5).2
      "a_1_5" 1).2 ⟨"a", 1, [2, 3], "forming", 5⟩ (by decide)).1 (by decide)
  · exact ((get_team_role_spec (create_team emptyCoordinator "a" 1 [2, 3] 5).2
      "a_1_5" 2).2 ⟨"a", 1, [2, 3], "forming", 5⟩ (by decide)).2.1 (by decide) (by decide)
  · exact ((get_team_role_spec (create_team emptyCoordinator "a" 1 [2, 3] 5).2
      "a_1_5" 7).2 ⟨"a", 1, [2, 3], "forming", 5⟩ (by decide)).2.2 (by decide) (by decide)
  · exact (get_team_role_spec emptyCoordinator "a_1_5" 1).1 (by decide)

/-! ### Claim C10 -/

/-- Claim C10: immediately after create_team returns an id,
get_team_members on that id returns the leader handle followed by exactly
the given member handles in order (the leader is part of the stored member
list); for every id not in the registry get_team_members returns []. -/
theorem get_team_members_spec :
    (∀ (c : Coordinator) (task_name : String) (leader : Int)
        (members : List Int) (now : Int),
      get_team_members (create_team c task_name leader members now).2
        (create_team c task_name leader members now).1 = leader :: members) ∧
    (∀ (c : Coordinator) (team_id : String),
      dictGet c.team_members team_id = none → get_team_members c team_id = []) := by
  constructor
  · intro c t l ms n
    unfold get_team_members create_team
    simp [dictGet_insert_self]
  · intro c id h
    unfold get_team_members
    rw [h]
    rfl

/-- Witness for C10: a create call with leader 4 and members [5, 6], and a
lookup of an id that was never created. -/
theorem get_team_members_spec_witness :
    get_team_members (create_team emptyCoordinator "b" 4 [5, 6] 9).2 "b_4_9" =
      [4, 5, 6] ∧
    get_team_members emptyCoordinator "b_4_9" = [] := by
  constructor
  · have e : (create_team emptyCoordinator "b" 4 [5, 6] 9).1 = "b_4_9" := by decide
    have h := get_team_members_spec.1 emptyCoordinator "b" 4 [5, 6] 9
    rw [e] at h
    exact h
  · exact get_team_members_spec.2 emptyCoordinator "b_4_9" (by decide)

end Dhsy
